import Mathlib

/-!
Verification development for the IntelligenceHub email-verification backend
(`main.py`, `fastapi_app.py`, `email_utils.py`).

The record store (MongoDB collections `users` and `leads`) is modelled as a
list of records in insertion order.  `find_one` with a filter is `List.find?`
on the corresponding predicate; `update_one` (which updates at most one
document, the first match) is `updateFirst`; `insert_one` appends a record
with a fresh `_id`.  The randomness of `secrets.token_hex(20)` is made
explicit: every request-verification operation receives the list of random
bytes and hex-encodes it exactly as Python does.  The email transport is
modelled by its two failure sources: the `EMAIL_PASS` credential (read lazily
by `send_email` via `os.getenv`) and the SMTP call outcome.
-/

namespace IntelligenceHub

/-- A stored document.  Documents written by this app carry `_id`, `email`,
`token`, `verified`, and (in the `leads` collection) `name` and `phone`.
For `users` documents the `name`/`phone` fields are unused by every
operation. -/
structure Rec where
  id : Nat
  email : String
  name : String
  phone : String
  token : String
  verified : Bool
deriving Repr, DecidableEq

/-- `update_one(filter, {"$set": ...})`: rewrite the first record matching
the filter (MongoDB's `update_one` modifies at most one document). -/
def updateFirst (p : Rec → Bool) (f : Rec → Rec) : List Rec → List Rec
  | [] => []
  | r :: rs => if p r then f r :: rs else r :: updateFirst p f rs

/-- The `_id` MongoDB generates for `insert_one`: fresh, i.e. distinct from
every `_id` already in the collection. -/
def freshId (c : List Rec) : Nat :=
  c.foldr (fun r m => max r.id m) 0 + 1

/-- The lowercase hexadecimal alphabet, the table `binascii.hexlify` draws
from. -/
def hexDigits : List Char :=
  "0123456789abcdef".data

/-- One byte rendered as two lowercase hex characters, as `binascii.hexlify`
does inside `secrets.token_hex`. -/
def byteToHex (b : Nat) : List Char :=
  [hexDigits.getD (b / 16) '0', hexDigits.getD (b % 16) '0']

/-- `secrets.token_hex` applied to the given random bytes: each byte becomes
two lowercase hex characters. -/
def token_hex (rnd : List Nat) : String :=
  String.mk (rnd.flatMap byteToHex)

/-- `email_utils.send_email` / `main.send_email`: reads `EMAIL_PASS` via
`os.getenv` at call time and raises if it is unset; otherwise the SMTP
round-trip either succeeds or raises.  `true` means the call returned
normally. -/
def send_email (emailPass : Option String) (transportOk : Bool) : Bool :=
  match emailPass with
  | none => false
  | some _ => transportOk

/-- Body of `POST /create_lead`. -/
structure LeadSchema where
  name : String
  email : String
  phone : String
deriving Repr, DecidableEq

/-- HTTP outcome of a request-verification endpoint. -/
inductive ReqResult where
  /-- `{"message": "Email is already verified"}` -/
  | alreadyVerified
  /-- `{"message": "Verification email sent"}` -/
  | sent
  /-- the exception raised by `send_email` propagates to the caller -/
  | emailError
deriving Repr, DecidableEq

/-- Result of a request-verification endpoint: HTTP outcome, the collection
afterwards, and whether `send_email` was invoked at all. -/
structure ReqOut where
  res : ReqResult
  store : List Rec
  attempted : Bool
deriving Repr, DecidableEq

/-- `POST /create_lead` (`main.py` lines 104-137) acting on the `leads`
collection.  `rnd` is the 20-byte randomness consumed by
`secrets.token_hex(20)`; the database writes happen before `send_email` is
called. -/
def create_lead (lead : LeadSchema) (rnd : List Nat)
    (emailPass : Option String) (transportOk : Bool) (c : List Rec) : ReqOut :=
  let token := token_hex rnd
  match c.find? (fun r => r.email == lead.email) with
  | some existing =>
      if existing.verified then
        { res := .alreadyVerified, store := c, attempted := false }
      else
        let c1 := updateFirst (fun r => r.id == existing.id)
          (fun r => { r with name := lead.name, phone := lead.phone,
                             token := token, verified := false }) c
        { res := if send_email emailPass transportOk then .sent else .emailError,
          store := c1, attempted := true }
  | none =>
      let c1 := c ++ [{ id := freshId c, email := lead.email, name := lead.name,
                        phone := lead.phone, token := token, verified := false }]
      { res := if send_email emailPass transportOk then .sent else .emailError,
        store := c1, attempted := true }

/-- `POST /send_verification` (`main.py` lines 139-168 on the `users`
collection; `fastapi_app.py` lines 55-86 has the identical store logic).
Only `token` and `verified` are written on re-issue; inserted user documents
carry no name or phone. -/
def send_verification (email : String) (rnd : List Nat)
    (emailPass : Option String) (transportOk : Bool) (c : List Rec) : ReqOut :=
  let token := token_hex rnd
  match c.find? (fun r => r.email == email) with
  | some existing =>
      if existing.verified then
        { res := .alreadyVerified, store := c, attempted := false }
      else
        let c1 := updateFirst (fun r => r.id == existing.id)
          (fun r => { r with token := token, verified := false }) c
        { res := if send_email emailPass transportOk then .sent else .emailError,
          store := c1, attempted := true }
  | none =>
      let c1 := c ++ [{ id := freshId c, email := email, name := "", phone := "",
                        token := token, verified := false }]
      { res := if send_email emailPass transportOk then .sent else .emailError,
        store := c1, attempted := true }

/-- HTTP outcome of a confirm-verification endpoint. -/
inductive VerifyResult where
  /-- the "already been verified" page / "Email is already verified." -/
  | alreadyVerified
  /-- the "successfully verified" page / "Email has been successfully verified." -/
  | verified
  /-- `HTTPException(status_code=400, detail="Invalid token or email")` -/
  | invalidTokenOrEmail
deriving Repr, DecidableEq

/-- Shared body of `GET /verify_client` (`main.py` lines 173-193) and
`GET /verify` (`fastapi_app.py` lines 88-102) on one collection:
`find_one({'email': email, 'token': token})`, then branch on `verified`,
setting it to `True` via `update_one` on the found `_id` when it was
`False`. -/
def verifyStep (token email : String) (c : List Rec) : VerifyResult × List Rec :=
  match c.find? (fun r => r.email == email && r.token == token) with
  | some record =>
      if record.verified then
        (.alreadyVerified, c)
      else
        (.verified, updateFirst (fun r => r.id == record.id)
                      (fun r => { r with verified := true }) c)
  | none => (.invalidTokenOrEmail, c)

/-- The whole database of `main.py`: the two collections of `IntelligenceHub`. -/
structure DB where
  users : List Rec
  leads : List Rec
deriving Repr, DecidableEq

/-- `GET /verify_client` (`main.py` lines 170-193): the `users` collection is
chosen when `db_type == "users"`, otherwise `leads`; the `phone` query
parameter is accepted and ignored. -/
def verify_client (token email : String) (phone : Option String)
    (dbType : String) (db : DB) : VerifyResult × DB :=
  let _ := phone
  if dbType == "users" then
    let p := verifyStep token email db.users
    (p.1, { db with users := p.2 })
  else
    let p := verifyStep token email db.leads
    (p.1, { db with leads := p.2 })

/-- `GET /verify_client` with the `db_type` query parameter omitted: FastAPI
fills in the declared default `db_type: str = "users"`. -/
def verify_client_default (token email : String) (phone : Option String)
    (db : DB) : VerifyResult × DB :=
  verify_client token email phone "users" db

/-- `GET /verify` (`fastapi_app.py` lines 88-102): same body as
`verify_client`, always on the `users` collection. -/
def verify_email (token email : String) (c : List Rec) : VerifyResult × List Rec :=
  verifyStep token email c

/-- Module-level startup of `main.py` (lines 53-64): `os.environ['MONGO_AUTH']`
and `os.environ['EMAIL_BASE_URL']` raise `KeyError` when missing, so import —
and hence serving — fails without them.  `EMAIL_PASS` is not read here: it is
read inside `send_email`, per call. -/
def startupOk (mongoAuth emailBaseUrl : Option String) : Bool :=
  mongoAuth.isSome && emailBaseUrl.isSome

/-- One inbound HTTP request of the verification flow. -/
inductive Op where
  | createLead (lead : LeadSchema) (rnd : List Nat)
      (emailPass : Option String) (transportOk : Bool)
  | sendVerification (email : String) (rnd : List Nat)
      (emailPass : Option String) (transportOk : Bool)
  | verifyClient (token email : String) (phone : Option String) (dbType : String)
  | verifyEmail (token email : String)
deriving Repr

/-- Effect of one request on the database (responses discarded). -/
def step (op : Op) (db : DB) : DB :=
  match op with
  | .createLead lead rnd emailPass transportOk =>
      { db with leads := (create_lead lead rnd emailPass transportOk db.leads).store }
  | .sendVerification email rnd emailPass transportOk =>
      { db with users := (send_verification email rnd emailPass transportOk db.users).store }
  | .verifyClient token email phone dbType =>
      (verify_client token email phone dbType db).2
  | .verifyEmail token email =>
      { db with users := (verify_email token email db.users).2 }

/-- Run a sequence of requests. -/
def run (ops : List Op) (db : DB) : DB :=
  match ops with
  | [] => db
  | op :: rest => run rest (step op db)

/-- The `_id` fields of a collection are pairwise distinct (MongoDB
guarantees this for generated ids). -/
def idsNodup (c : List Rec) : Prop :=
  (c.map (fun r => r.id)).Nodup

/-- The emails of a collection are pairwise distinct: the store-level
uniqueness invariant (`fastapi_app.py` line 24 creates the unique index). -/
def emailsNodup (c : List Rec) : Prop :=
  (c.map (fun r => r.email)).Nodup

/-- Well-formed collection: distinct ids and distinct emails. -/
def WF (c : List Rec) : Prop :=
  idsNodup c ∧ emailsNodup c

instance (c : List Rec) : Decidable (idsNodup c) := by
  unfold idsNodup; infer_instance

instance (c : List Rec) : Decidable (emailsNodup c) := by
  unfold emailsNodup; infer_instance

instance (c : List Rec) : Decidable (WF c) := by
  unfold WF; infer_instance

/-- Both collections have pairwise distinct ids. -/
def idsNodupDB (db : DB) : Prop :=
  idsNodup db.users ∧ idsNodup db.leads

instance (db : DB) : Decidable (idsNodupDB db) := by
  unfold idsNodupDB; infer_instance

/-- Per-record monotonicity: same id, and `verified` does not revert. -/
def recMono (x y : Rec) : Prop :=
  y.id = x.id ∧ (x.verified = true → y.verified = true)

/-- Store-level monotonicity: every position present before is still present
afterwards, holds a record with the same id, and its `verified` flag never
goes from `true` back to `false`. -/
def Mono (a b : List Rec) : Prop :=
  a.length ≤ b.length ∧ ∀ (i : Nat) (h1 : i < a.length) (h2 : i < b.length),
    recMono (a.get ⟨i, h1⟩) (b.get ⟨i, h2⟩)

/-- Database-level monotonicity: both collections are monotone. -/
def MonoDB (a b : DB) : Prop :=
  Mono a.users b.users ∧ Mono a.leads b.leads

/-- Frame relation of a `create_lead` re-issue: the record for the lead's
email gets exactly `name`, `phone`, `token` and `verified` overwritten;
every other record is untouched; ids and emails are preserved everywhere. -/
def leadFrame (lead : LeadSchema) (rnd : List Nat) (x y : Rec) : Prop :=
  y.id = x.id ∧ y.email = x.email ∧
  (x.email ≠ lead.email → y = x) ∧
  (x.email = lead.email →
    y = { x with name := lead.name, phone := lead.phone,
                 token := token_hex rnd, verified := false })

/-- Frame relation of a `send_verification` re-issue: the record for the
email gets exactly `token` and `verified` overwritten; every other record is
untouched; ids and emails are preserved everywhere. -/
def userFrame (email : String) (rnd : List Nat) (x y : Rec) : Prop :=
  y.id = x.id ∧ y.email = x.email ∧
  (x.email ≠ email → y = x) ∧
  (x.email = email → y = { x with token := token_hex rnd, verified := false })

/-! ### Helper lemmas about the store primitives -/

theorem updateFirst_length (p : Rec → Bool) (f : Rec → Rec) (c : List Rec) :
    (updateFirst p f c).length = c.length := by
  induction c with
  | nil => rfl
  | cons r rs ih =>
      unfold updateFirst
      by_cases h : p r <;> simp [h, ih]

theorem mem_updateFirst {p : Rec → Bool} {f : Rec → Rec} {c : List Rec} {x : Rec}
    (hx : x ∈ updateFirst p f c) : x ∈ c ∨ ∃ y ∈ c, p y = true ∧ x = f y := by
  induction c with
  | nil => simp [updateFirst] at hx
  | cons r rs ih =>
      unfold updateFirst at hx
      by_cases h : p r
      · rw [if_pos h] at hx
        rcases List.mem_cons.mp hx with hx | hx
        · exact Or.inr ⟨r, List.mem_cons_self r rs, h, hx⟩
        · exact Or.inl (List.mem_cons_of_mem r hx)
      · rw [if_neg h] at hx
        rcases List.mem_cons.mp hx with hx | hx
        · exact Or.inl (hx ▸ List.mem_cons_self r rs)
        · rcases ih hx with hx2 | ⟨y, hy, hpy, hxy⟩
          · exact Or.inl (List.mem_cons_of_mem r hx2)
          · exact Or.inr ⟨y, List.mem_cons_of_mem r hy, hpy, hxy⟩

theorem find?_decomp {p : Rec → Bool} {c : List Rec} {r : Rec}
    (h : c.find? p = some r) :
    ∃ c₁ c₂, c = c₁ ++ r :: c₂ ∧ ∀ x ∈ c₁, p x = false := by
  induction c with
  | nil => simp [List.find?] at h
  | cons a as ih =>
      by_cases hp : p a
      · rw [List.find?_cons_of_pos as hp] at h
        obtain rfl : a = r := by injection h
        exact ⟨[], as, rfl, by simp⟩
      · rw [List.find?_cons_of_neg as hp] at h
        obtain ⟨c₁, c₂, rfl, hc₁⟩ := ih h
        refine ⟨a :: c₁, c₂, rfl, ?_⟩
        intro x hx
        rcases List.mem_cons.mp hx with rfl | hx
        · exact Bool.eq_false_iff.mpr hp
        · exact hc₁ x hx

theorem updateFirst_middle (p : Rec → Bool) (f : Rec → Rec)
    {c₁ c₂ : List Rec} {r : Rec}
    (h1 : ∀ x ∈ c₁, p x = false) (h2 : p r = true) :
    updateFirst p f (c₁ ++ r :: c₂) = c₁ ++ f r :: c₂ := by
  induction c₁ with
  | nil => simp [updateFirst, h2]
  | cons a as ih =>
      have ha : p a = false := h1 a (List.mem_cons_self a as)
      simp only [List.cons_append, updateFirst, ha]
      simp only [Bool.false_eq_true, if_false, List.cons.injEq, true_and]
      exact ih fun x hx => h1 x (List.mem_cons_of_mem a hx)

theorem find?_middle (p : Rec → Bool) {c₁ c₂ : List Rec} {r : Rec}
    (h1 : ∀ x ∈ c₁, p x = false) (h2 : p r = true) :
    (c₁ ++ r :: c₂).find? p = some r := by
  induction c₁ with
  | nil => simpa [List.find?] using List.find?_cons_of_pos c₂ h2
  | cons a as ih =>
      have ha : p a = false := h1 a (List.mem_cons_self a as)
      rw [List.cons_append, List.find?_cons_of_neg _ (by simp [ha])]
      exact ih fun x hx => h1 x (List.mem_cons_of_mem a hx)

theorem map_updateFirst {α : Type} (g : Rec → α) (p : Rec → Bool) (f : Rec → Rec)
    (c : List Rec) (hf : ∀ x, g (f x) = g x) :
    (updateFirst p f c).map g = c.map g := by
  induction c with
  | nil => rfl
  | cons r rs ih =>
      unfold updateFirst
      by_cases h : p r <;> simp [h, ih, hf]

theorem idsNodup_updateFirst {c : List Rec} (p : Rec → Bool) (f : Rec → Rec)
    (hf : ∀ x, (f x).id = x.id) (h : idsNodup c) : idsNodup (updateFirst p f c) := by
  unfold idsNodup
  rw [map_updateFirst (fun r => r.id) p f c hf]
  exact h

theorem nodup_map_middle {α : Type} {g : Rec → α} {c₁ c₂ : List Rec} {r : Rec}
    (h : ((c₁ ++ r :: c₂).map g).Nodup) :
    (∀ x ∈ c₁, g x ≠ g r) ∧ (∀ x ∈ c₂, g x ≠ g r) := by
  rw [List.map_append, List.map_cons, List.nodup_middle, List.nodup_cons,
    List.mem_append] at h
  constructor
  · intro x hx hgx
    exact h.1 (Or.inl (hgx ▸ List.mem_map.mpr ⟨x, hx, rfl⟩))
  · intro x hx hgx
    exact h.1 (Or.inr (hgx ▸ List.mem_map.mpr ⟨x, hx, rfl⟩))

theorem updateFirst_id_middle (f : Rec → Rec) {c₁ c₂ : List Rec} {r : Rec}
    (h : idsNodup (c₁ ++ r :: c₂)) :
    updateFirst (fun x => x.id == r.id) f (c₁ ++ r :: c₂) = c₁ ++ f r :: c₂ := by
  refine updateFirst_middle _ f ?_ (beq_self_eq_true r.id)
  intro x hx
  exact beq_eq_false_iff_ne.mpr ((nodup_map_middle h).1 x hx)

theorem emails_injOn {c : List Rec} (h : emailsNodup c) {x y : Rec}
    (hx : x ∈ c) (hy : y ∈ c) (hxy : x.email = y.email) : x = y :=
  List.inj_on_of_nodup_map h hx hy hxy

theorem le_foldr_max {c : List Rec} {r : Rec} (h : r ∈ c) :
    r.id ≤ c.foldr (fun r m => max r.id m) 0 := by
  induction c with
  | nil => simp at h
  | cons a as ih =>
      rcases List.mem_cons.mp h with rfl | h
      · exact le_max_left _ _
      · exact le_trans (ih h) (le_max_right _ _)

theorem lt_freshId {c : List Rec} {r : Rec} (h : r ∈ c) : r.id < freshId c :=
  Nat.lt_succ_of_le (le_foldr_max h)

theorem idsNodup_append_fresh {c : List Rec} (h : idsNodup c) {r : Rec}
    (hr : r.id = freshId c) : idsNodup (c ++ [r]) := by
  unfold idsNodup at h ⊢
  rw [List.map_append, List.nodup_append]
  refine ⟨h, List.nodup_singleton _, ?_⟩
  rw [List.map_singleton, List.disjoint_singleton]
  intro hmem
  obtain ⟨y, hy, hyid⟩ := List.mem_map.mp hmem
  exact absurd (hyid.trans hr) (Nat.ne_of_lt (lt_freshId hy))

/-! ### Equation lemmas for the endpoint bodies -/

theorem verifyStep_none {token email : String} {c : List Rec}
    (hf : c.find? (fun r => r.email == email && r.token == token) = none) :
    verifyStep token email c = (.invalidTokenOrEmail, c) := by
  simp only [verifyStep, hf]

theorem verifyStep_found_verified {token email : String} {c : List Rec} {r : Rec}
    (hf : c.find? (fun x => x.email == email && x.token == token) = some r)
    (hv : r.verified = true) :
    verifyStep token email c = (.alreadyVerified, c) := by
  simp only [verifyStep, hf, hv, if_true]

theorem verifyStep_found_unverified {token email : String} {c : List Rec} {r : Rec}
    (hf : c.find? (fun x => x.email == email && x.token == token) = some r)
    (hv : r.verified = false) :
    verifyStep token email c =
      (.verified, updateFirst (fun x => x.id == r.id)
        (fun x => { x with verified := true }) c) := by
  simp only [verifyStep, hf, hv, Bool.false_eq_true, if_false]

theorem create_lead_found_verified {lead : LeadSchema} {rnd : List Nat}
    {emailPass : Option String} {transportOk : Bool} {c : List Rec} {r : Rec}
    (hf : c.find? (fun x => x.email == lead.email) = some r) (hv : r.verified = true) :
    create_lead lead rnd emailPass transportOk c =
      { res := .alreadyVerified, store := c, attempted := false } := by
  simp only [create_lead, hf, hv, if_true]

theorem create_lead_found_unverified {lead : LeadSchema} {rnd : List Nat}
    {emailPass : Option String} {transportOk : Bool} {c : List Rec} {r : Rec}
    (hf : c.find? (fun x => x.email == lead.email) = some r) (hv : r.verified = false) :
    create_lead lead rnd emailPass transportOk c =
      { res := if send_email emailPass transportOk then .sent else .emailError,
        store := updateFirst (fun x => x.id == r.id)
          (fun x => { x with name := lead.name, phone := lead.phone,
                             token := token_hex rnd, verified := false }) c,
        attempted := true } := by
  simp only [create_lead, hf, hv, Bool.false_eq_true, if_false]

theorem create_lead_not_found {lead : LeadSchema} {rnd : List Nat}
    {emailPass : Option String} {transportOk : Bool} {c : List Rec}
    (hf : c.find? (fun x => x.email == lead.email) = none) :
    create_lead lead rnd emailPass transportOk c =
      { res := if send_email emailPass transportOk then .sent else .emailError,
        store := c ++ [{ id := freshId c, email := lead.email, name := lead.name,
                         phone := lead.phone, token := token_hex rnd, verified := false }],
        attempted := true } := by
  simp only [create_lead, hf]

theorem send_verification_found_verified {email : String} {rnd : List Nat}
    {emailPass : Option String} {transportOk : Bool} {c : List Rec} {r : Rec}
    (hf : c.find? (fun x => x.email == email) = some r) (hv : r.verified = true) :
    send_verification email rnd emailPass transportOk c =
      { res := .alreadyVerified, store := c, attempted := false } := by
  simp only [send_verification, hf, hv, if_true]

theorem send_verification_found_unverified {email : String} {rnd : List Nat}
    {emailPass : Option String} {transportOk : Bool} {c : List Rec} {r : Rec}
    (hf : c.find? (fun x => x.email == email) = some r) (hv : r.verified = false) :
    send_verification email rnd emailPass transportOk c =
      { res := if send_email emailPass transportOk then .sent else .emailError,
        store := updateFirst (fun x => x.id == r.id)
          (fun x => { x with token := token_hex rnd, verified := false }) c,
        attempted := true } := by
  simp only [send_verification, hf, hv, Bool.false_eq_true, if_false]

theorem send_verification_not_found {email : String} {rnd : List Nat}
    {emailPass : Option String} {transportOk : Bool} {c : List Rec}
    (hf : c.find? (fun x => x.email == email) = none) :
    send_verification email rnd emailPass transportOk c =
      { res := if send_email emailPass transportOk then .sent else .emailError,
        store := c ++ [{ id := freshId c, email := email, name := "", phone := "",
                         token := token_hex rnd, verified := false }],
        attempted := true } := by
  simp only [send_verification, hf]

/-! ### Verified-flag monotonicity -/

theorem mono_refl (a : List Rec) : Mono a a :=
  ⟨le_refl _, fun _ _ _ => ⟨rfl, id⟩⟩

theorem mono_trans {a b c : List Rec} (hab : Mono a b) (hbc : Mono b c) :
    Mono a c := by
  refine ⟨le_trans hab.1 hbc.1, fun i h1 h3 => ?_⟩
  have h2 : i < b.length := lt_of_lt_of_le h1 hab.1
  obtain ⟨hid1, hv1⟩ := hab.2 i h1 h2
  obtain ⟨hid2, hv2⟩ := hbc.2 i h2 h3
  exact ⟨hid2.trans hid1, fun hv => hv2 (hv1 hv)⟩

theorem mono_of_forall2 {a b : List Rec} (h : List.Forall₂ recMono a b) :
    Mono a b :=
  ⟨le_of_eq h.length_eq, fun _ h1 h2 => h.get h1 h2⟩

theorem forall2_recMono_refl (l : List Rec) : List.Forall₂ recMono l l :=
  List.forall₂_same.mpr fun _ _ => ⟨rfl, id⟩

theorem mono_middle {c₁ c₂ : List Rec} {r r' : Rec} (hid : r'.id = r.id)
    (hv : r.verified = true → r'.verified = true) :
    Mono (c₁ ++ r :: c₂) (c₁ ++ r' :: c₂) :=
  mono_of_forall2 (List.rel_append (forall2_recMono_refl c₁)
    (List.Forall₂.cons ⟨hid, hv⟩ (forall2_recMono_refl c₂)))

theorem mono_append (a ext : List Rec) : Mono a (a ++ ext) := by
  refine ⟨by simp, fun i h1 h2 => ?_⟩
  have he : (a ++ ext).get ⟨i, h2⟩ = a.get ⟨i, h1⟩ := by
    simp only [List.get_eq_getElem]
    exact List.getElem_append_left h1
  rw [he]
  exact ⟨rfl, id⟩

theorem verifyStep_snd_mono (token email : String) {c : List Rec}
    (h : idsNodup c) : Mono c (verifyStep token email c).2 := by
  cases hf : c.find? (fun x => x.email == email && x.token == token) with
  | none => rw [verifyStep_none hf]; exact mono_refl c
  | some r =>
      by_cases hv : r.verified = true
      · rw [verifyStep_found_verified hf hv]; exact mono_refl c
      · rw [verifyStep_found_unverified hf (Bool.eq_false_iff.mpr hv)]
        obtain ⟨c₁, c₂, hc, _⟩ := find?_decomp hf
        subst hc
        rw [updateFirst_id_middle _ h]
        exact mono_middle rfl fun _ => rfl

theorem verifyStep_snd_idsNodup (token email : String) {c : List Rec}
    (h : idsNodup c) : idsNodup (verifyStep token email c).2 := by
  cases hf : c.find? (fun x => x.email == email && x.token == token) with
  | none => rw [verifyStep_none hf]; exact h
  | some r =>
      by_cases hv : r.verified = true
      · rw [verifyStep_found_verified hf hv]; exact h
      · rw [verifyStep_found_unverified hf (Bool.eq_false_iff.mpr hv)]
        exact idsNodup_updateFirst _ _ (fun _ => rfl) h

theorem create_lead_store_mono (lead : LeadSchema) (rnd : List Nat)
    (emailPass : Option String) (transportOk : Bool) {c : List Rec}
    (h : idsNodup c) :
    Mono c (create_lead lead rnd emailPass transportOk c).store := by
  cases hf : c.find? (fun x => x.email == lead.email) with
  | none => rw [create_lead_not_found hf]; exact mono_append c _
  | some r =>
      by_cases hv : r.verified = true
      · rw [create_lead_found_verified hf hv]; exact mono_refl c
      · rw [create_lead_found_unverified hf (Bool.eq_false_iff.mpr hv)]
        obtain ⟨c₁, c₂, hc, _⟩ := find?_decomp hf
        subst hc
        rw [updateFirst_id_middle _ h]
        exact mono_middle rfl fun hvv => absurd hvv hv

theorem create_lead_store_idsNodup (lead : LeadSchema) (rnd : List Nat)
    (emailPass : Option String) (transportOk : Bool) {c : List Rec}
    (h : idsNodup c) :
    idsNodup (create_lead lead rnd emailPass transportOk c).store := by
  cases hf : c.find? (fun x => x.email == lead.email) with
  | none => rw [create_lead_not_found hf]; exact idsNodup_append_fresh h rfl
  | some r =>
      by_cases hv : r.verified = true
      · rw [create_lead_found_verified hf hv]; exact h
      · rw [create_lead_found_unverified hf (Bool.eq_false_iff.mpr hv)]
        exact idsNodup_updateFirst _ _ (fun _ => rfl) h

theorem send_verification_store_mono (email : String) (rnd : List Nat)
    (emailPass : Option String) (transportOk : Bool) {c : List Rec}
    (h : idsNodup c) :
    Mono c (send_verification email rnd emailPass transportOk c).store := by
  cases hf : c.find? (fun x => x.email == email) with
  | none => rw [send_verification_not_found hf]; exact mono_append c _
  | some r =>
      by_cases hv : r.verified = true
      · rw [send_verification_found_verified hf hv]; exact mono_refl c
      · rw [send_verification_found_unverified hf (Bool.eq_false_iff.mpr hv)]
        obtain ⟨c₁, c₂, hc, _⟩ := find?_decomp hf
        subst hc
        rw [updateFirst_id_middle _ h]
        exact mono_middle rfl fun hvv => absurd hvv hv

theorem send_verification_store_idsNodup (email : String) (rnd : List Nat)
    (emailPass : Option String) (transportOk : Bool) {c : List Rec}
    (h : idsNodup c) :
    idsNodup (send_verification email rnd emailPass transportOk c).store := by
  cases hf : c.find? (fun x => x.email == email) with
  | none => rw [send_verification_not_found hf]; exact idsNodup_append_fresh h rfl
  | some r =>
      by_cases hv : r.verified = true
      · rw [send_verification_found_verified hf hv]; exact h
      · rw [send_verification_found_unverified hf (Bool.eq_false_iff.mpr hv)]
        exact idsNodup_updateFirst _ _ (fun _ => rfl) h

theorem monoDB_refl (db : DB) : MonoDB db db :=
  ⟨mono_refl _, mono_refl _⟩

theorem monoDB_trans {a b c : DB} (hab : MonoDB a b) (hbc : MonoDB b c) :
    MonoDB a c :=
  ⟨mono_trans hab.1 hbc.1, mono_trans hab.2 hbc.2⟩

theorem step_mono (op : Op) {db : DB} (h : idsNodupDB db) :
    MonoDB db (step op db) := by
  cases op with
  | createLead lead rnd emailPass transportOk =>
      exact ⟨mono_refl _, create_lead_store_mono lead rnd emailPass transportOk h.2⟩
  | sendVerification email rnd emailPass transportOk =>
      exact ⟨send_verification_store_mono email rnd emailPass transportOk h.1,
             mono_refl _⟩
  | verifyClient token email phone dbType =>
      simp only [step, verify_client]
      by_cases hd : (dbType == "users") = true
      · rw [if_pos hd]
        exact ⟨verifyStep_snd_mono token email h.1, mono_refl _⟩
      · rw [if_neg hd]
        exact ⟨mono_refl _, verifyStep_snd_mono token email h.2⟩
  | verifyEmail token email =>
      exact ⟨verifyStep_snd_mono token email h.1, mono_refl _⟩

theorem step_idsNodup (op : Op) {db : DB} (h : idsNodupDB db) :
    idsNodupDB (step op db) := by
  cases op with
  | createLead lead rnd emailPass transportOk =>
      exact ⟨h.1, create_lead_store_idsNodup lead rnd emailPass transportOk h.2⟩
  | sendVerification email rnd emailPass transportOk =>
      exact ⟨send_verification_store_idsNodup email rnd emailPass transportOk h.1, h.2⟩
  | verifyClient token email phone dbType =>
      simp only [step, verify_client]
      by_cases hd : (dbType == "users") = true
      · rw [if_pos hd]
        exact ⟨verifyStep_snd_idsNodup token email h.1, h.2⟩
      · rw [if_neg hd]
        exact ⟨h.1, verifyStep_snd_idsNodup token email h.2⟩
  | verifyEmail token email =>
      exact ⟨verifyStep_snd_idsNodup token email h.1, h.2⟩

/-! ### Independence of the store from the email transport -/

theorem send_email_none (transportOk : Bool) :
    send_email none transportOk = false := rfl

theorem send_email_not_ok (emailPass : Option String) :
    send_email emailPass false = false := by
  cases emailPass <;> rfl

theorem create_lead_store_indep (lead : LeadSchema) (rnd : List Nat)
    (p1 p2 : Option String) (t1 t2 : Bool) (c : List Rec) :
    (create_lead lead rnd p1 t1 c).store = (create_lead lead rnd p2 t2 c).store := by
  cases hf : c.find? (fun x => x.email == lead.email) with
  | none => rw [create_lead_not_found hf, create_lead_not_found hf]
  | some r =>
      by_cases hv : r.verified = true
      · rw [create_lead_found_verified hf hv, create_lead_found_verified hf hv]
      · rw [create_lead_found_unverified hf (Bool.eq_false_iff.mpr hv),
            create_lead_found_unverified hf (Bool.eq_false_iff.mpr hv)]

theorem create_lead_attempted_indep (lead : LeadSchema) (rnd : List Nat)
    (p1 p2 : Option String) (t1 t2 : Bool) (c : List Rec) :
    (create_lead lead rnd p1 t1 c).attempted
      = (create_lead lead rnd p2 t2 c).attempted := by
  cases hf : c.find? (fun x => x.email == lead.email) with
  | none => rw [create_lead_not_found hf, create_lead_not_found hf]
  | some r =>
      by_cases hv : r.verified = true
      · rw [create_lead_found_verified hf hv, create_lead_found_verified hf hv]
      · rw [create_lead_found_unverified hf (Bool.eq_false_iff.mpr hv),
            create_lead_found_unverified hf (Bool.eq_false_iff.mpr hv)]

theorem create_lead_res_spec (lead : LeadSchema) (rnd : List Nat)
    (emailPass : Option String) (transportOk : Bool) (c : List Rec) :
    (create_lead lead rnd emailPass transportOk c).res =
      if (create_lead lead rnd emailPass transportOk c).attempted then
        (if send_email emailPass transportOk then .sent else .emailError)
      else .alreadyVerified := by
  cases hf : c.find? (fun x => x.email == lead.email) with
  | none => rw [create_lead_not_found hf]; rfl
  | some r =>
      by_cases hv : r.verified = true
      · rw [create_lead_found_verified hf hv]; rfl
      · rw [create_lead_found_unverified hf (Bool.eq_false_iff.mpr hv)]; rfl

theorem send_verification_store_indep (email : String) (rnd : List Nat)
    (p1 p2 : Option String) (t1 t2 : Bool) (c : List Rec) :
    (send_verification email rnd p1 t1 c).store
      = (send_verification email rnd p2 t2 c).store := by
  cases hf : c.find? (fun x => x.email == email) with
  | none => rw [send_verification_not_found hf, send_verification_not_found hf]
  | some r =>
      by_cases hv : r.verified = true
      · rw [send_verification_found_verified hf hv,
            send_verification_found_verified hf hv]
      · rw [send_verification_found_unverified hf (Bool.eq_false_iff.mpr hv),
            send_verification_found_unverified hf (Bool.eq_false_iff.mpr hv)]

theorem send_verification_attempted_indep (email : String) (rnd : List Nat)
    (p1 p2 : Option String) (t1 t2 : Bool) (c : List Rec) :
    (send_verification email rnd p1 t1 c).attempted
      = (send_verification email rnd p2 t2 c).attempted := by
  cases hf : c.find? (fun x => x.email == email) with
  | none => rw [send_verification_not_found hf, send_verification_not_found hf]
  | some r =>
      by_cases hv : r.verified = true
      · rw [send_verification_found_verified hf hv,
            send_verification_found_verified hf hv]
      · rw [send_verification_found_unverified hf (Bool.eq_false_iff.mpr hv),
            send_verification_found_unverified hf (Bool.eq_false_iff.mpr hv)]

theorem send_verification_res_spec (email : String) (rnd : List Nat)
    (emailPass : Option String) (transportOk : Bool) (c : List Rec) :
    (send_verification email rnd emailPass transportOk c).res =
      if (send_verification email rnd emailPass transportOk c).attempted then
        (if send_email emailPass transportOk then .sent else .emailError)
      else .alreadyVerified := by
  cases hf : c.find? (fun x => x.email == email) with
  | none => rw [send_verification_not_found hf]; rfl
  | some r =>
      by_cases hv : r.verified = true
      · rw [send_verification_found_verified hf hv]; rfl
      · rw [send_verification_found_unverified hf (Bool.eq_false_iff.mpr hv)]; rfl

/-! ### Facts about the token encoding -/

theorem getD_mem_hexDigits (n : Nat) : hexDigits.getD n '0' ∈ hexDigits := by
  by_cases h : n < hexDigits.length
  · rw [List.getD_eq_getElem _ _ h]
    exact List.getElem_mem h
  · rw [List.getD_eq_default _ _ (le_of_not_lt h)]
    decide

theorem mem_byteToHex_mem_hexDigits {b : Nat} {ch : Char}
    (h : ch ∈ byteToHex b) : ch ∈ hexDigits := by
  rcases List.mem_cons.mp h with rfl | h
  · exact getD_mem_hexDigits _
  · rcases List.mem_cons.mp h with rfl | h
    · exact getD_mem_hexDigits _
    · simp at h

theorem token_hex_data (rnd : List Nat) :
    (token_hex rnd).data = rnd.flatMap byteToHex := rfl

theorem token_hex_length (rnd : List Nat) :
    (token_hex rnd).length = 2 * rnd.length := by
  show (rnd.flatMap byteToHex).length = 2 * rnd.length
  induction rnd with
  | nil => rfl
  | cons b bs ih =>
      rw [List.flatMap_cons, List.length_append, ih]
      simp [byteToHex]
      ring

theorem verifyPred_eq {token email : String} {x : Rec} :
    ((x.email == email && x.token == token) = true) ↔
      (x.email = email ∧ x.token = token) := by
  simp [Bool.and_eq_true, beq_iff_eq]

theorem verify_client_fst_leads (token email : String) (phone : Option String)
    (us ls : List Rec) :
    (verify_client token email phone "leads" ⟨us, ls⟩).1
      = (verifyStep token email ls).1 := rfl

/-! ### Claim theorems -/

/-- C2: for every record in either collection and every operation of the
system (`/create_lead`, `/send_verification`, `/verify_client`, `/verify`),
a record whose `verified` flag is `true` before the operation still has it
`true` afterwards; no reachable sequence of requests ever sets `verified`
back to `false`. -/
theorem verified_never_reverts (ops : List Op) (db : DB) (h : idsNodupDB db) :
    MonoDB db (run ops db) := by
  induction ops generalizing db with
  | nil => exact monoDB_refl db
  | cons op rest ih =>
      exact monoDB_trans (step_mono op h) (ih (step op db) (step_idsNodup op h))

theorem verified_never_reverts_witness :
    (DB.mk [⟨1, "ann@x.com", "", "", "t1", true⟩] []).users.length ≤
      (run [Op.sendVerification "bob@x.com" [0] none true,
            Op.createLead ⟨"Cal", "cal@x.com", "5"⟩ [1] (some "pw") true,
            Op.verifyClient "0000" "bob@x.com" none "users",
            Op.verifyEmail "t1" "ann@x.com"]
         (DB.mk [⟨1, "ann@x.com", "", "", "t1", true⟩] [])).users.length :=
  (verified_never_reverts
    [Op.sendVerification "bob@x.com" [0] none true,
     Op.createLead ⟨"Cal", "cal@x.com", "5"⟩ [1] (some "pw") true,
     Op.verifyClient "0000" "bob@x.com" none "users",
     Op.verifyEmail "t1" "ann@x.com"]
    (DB.mk [⟨1, "ann@x.com", "", "", "t1", true⟩] []) (by decide)).1.1

/-- C5: for a record that is already verified, request-verification on the
same email short-circuits on both `/create_lead` and `/send_verification`:
it answers "already verified", leaves the collection unchanged, and never
invokes the email sender. -/
theorem already_verified_short_circuits (lead : LeadSchema) (email : String)
    (rnd rnd2 : List Nat) (emailPass : Option String) (transportOk : Bool)
    (c u : List Rec) (r s : Rec)
    (hr : c.find? (fun x => x.email == lead.email) = some r)
    (hrv : r.verified = true)
    (hs : u.find? (fun x => x.email == email) = some s)
    (hsv : s.verified = true) :
    create_lead lead rnd emailPass transportOk c =
      { res := .alreadyVerified, store := c, attempted := false } ∧
    send_verification email rnd2 emailPass transportOk u =
      { res := .alreadyVerified, store := u, attempted := false } :=
  ⟨create_lead_found_verified hr hrv, send_verification_found_verified hs hsv⟩

theorem already_verified_short_circuits_witness :
    create_lead ⟨"Ann", "ann@x.com", "5"⟩ [0] (some "pw") true
        [⟨1, "ann@x.com", "A", "5", "t", true⟩] =
      { res := .alreadyVerified, store := [⟨1, "ann@x.com", "A", "5", "t", true⟩],
        attempted := false } ∧
    send_verification "bob@y.com" [1] (some "pw") true
        [⟨2, "bob@y.com", "", "", "u", true⟩] =
      { res := .alreadyVerified, store := [⟨2, "bob@y.com", "", "", "u", true⟩],
        attempted := false } :=
  already_verified_short_circuits ⟨"Ann", "ann@x.com", "5"⟩ "bob@y.com" [0] [1]
    (some "pw") true [⟨1, "ann@x.com", "A", "5", "t", true⟩]
    [⟨2, "bob@y.com", "", "", "u", true⟩] ⟨1, "ann@x.com", "A", "5", "t", true⟩
    ⟨2, "bob@y.com", "", "", "u", true⟩ (by decide) (by decide) (by decide) (by decide)

/-- C6: when the email transport fails during request-verification, the
caller gets an error, but the store mutation already applied is not rolled
back: the store (and whether a send was attempted) is exactly as in a
successful run, for both `/create_lead` and `/send_verification`. -/
theorem email_failure_not_rolled_back (lead : LeadSchema) (email : String)
    (rnd rnd2 : List Nat) (emailPass : Option String) (c u : List Rec) :
    (create_lead lead rnd emailPass false c).store
        = (create_lead lead rnd emailPass true c).store ∧
    (create_lead lead rnd emailPass false c).attempted
        = (create_lead lead rnd emailPass true c).attempted ∧
    (create_lead lead rnd emailPass false c).res
        = (if (create_lead lead rnd emailPass false c).attempted
           then .emailError else .alreadyVerified) ∧
    (send_verification email rnd2 emailPass false u).store
        = (send_verification email rnd2 emailPass true u).store ∧
    (send_verification email rnd2 emailPass false u).attempted
        = (send_verification email rnd2 emailPass true u).attempted ∧
    (send_verification email rnd2 emailPass false u).res
        = (if (send_verification email rnd2 emailPass false u).attempted
           then .emailError else .alreadyVerified) := by
  refine ⟨create_lead_store_indep _ _ _ _ _ _ _,
          create_lead_attempted_indep _ _ _ _ _ _ _, ?_,
          send_verification_store_indep _ _ _ _ _ _ _,
          send_verification_attempted_indep _ _ _ _ _ _ _, ?_⟩
  · rw [create_lead_res_spec]
    simp [send_email_not_ok]
  · rw [send_verification_res_spec]
    simp [send_email_not_ok]

/-- C8 counterexample: with `EMAIL_PASS` absent, module-level startup still
succeeds (it reads only `MONGO_AUTH` and `EMAIL_BASE_URL`), a
`GET /verify_client` request is served and verifies a record, and a
`POST /create_lead` request inserts a record into the store before the
missing credential makes `send_email` raise. -/
theorem email_pass_checked_per_send_counterexample :
    startupOk (some "mongo-uri") (some "base-url") = true ∧
    (verify_client "t1" "ann@x.com" none "users"
        ⟨[⟨1, "ann@x.com", "", "", "t1", false⟩], []⟩).1 = .verified ∧
    (create_lead ⟨"Ann", "ann@x.com", "555"⟩ [7] none true []).store.length = 1 ∧
    (create_lead ⟨"Ann", "ann@x.com", "555"⟩ [7] none true []).res = .emailError := by
  decide

/-- C8 amended: a missing `EMAIL_PASS` is not fatal at startup; it is
detected only when a request-verification call reaches `send_email`, which
then raises.  Such a request never reports success, but it has already
mutated the store exactly as a successful run would; confirm requests are
served regardless. -/
theorem email_pass_missing_detected_at_send (lead : LeadSchema) (email : String)
    (rnd rnd2 : List Nat) (transportOk : Bool) (pw : String) (c u : List Rec) :
    ((create_lead lead rnd none transportOk c).res = .emailError ∨
      (create_lead lead rnd none transportOk c).res = .alreadyVerified) ∧
    (create_lead lead rnd none transportOk c).store
      = (create_lead lead rnd (some pw) true c).store ∧
    ((send_verification email rnd2 none transportOk u).res = .emailError ∨
      (send_verification email rnd2 none transportOk u).res = .alreadyVerified) ∧
    (send_verification email rnd2 none transportOk u).store
      = (send_verification email rnd2 (some pw) true u).store := by
  refine ⟨?_, create_lead_store_indep _ _ _ _ _ _ _, ?_,
          send_verification_store_indep _ _ _ _ _ _ _⟩
  · rw [create_lead_res_spec, send_email_none]
    cases hA : (create_lead lead rnd none transportOk c).attempted <;> simp
  · rw [send_verification_res_spec, send_email_none]
    cases hA : (send_verification email rnd2 none transportOk u).attempted <;> simp

/-- C10: in `GET /verify_client`, the `users` collection is selected exactly
when `db_type` is the string "users" (also the FastAPI default when the
parameter is omitted); every other string — any misspelling or arbitrary
value — selects the `leads` collection instead of being rejected. -/
theorem verify_client_dbtype_dispatch (token email : String)
    (phone : Option String) (dbType : String) (db : DB) (h : dbType ≠ "users") :
    verify_client token email phone dbType db
      = ((verifyStep token email db.leads).1,
         { db with leads := (verifyStep token email db.leads).2 }) ∧
    verify_client token email phone "users" db
      = ((verifyStep token email db.users).1,
         { db with users := (verifyStep token email db.users).2 }) ∧
    verify_client_default token email phone db
      = verify_client token email phone "users" db := by
  refine ⟨?_, rfl, rfl⟩
  simp only [verify_client]
  rw [if_neg fun hc => h (beq_iff_eq.mp hc)]

theorem verify_client_dbtype_dispatch_witness :
    ("Users" ≠ "users") ∧
    (verify_client "t2" "lee@x.com" none "Users"
        ⟨[], [⟨1, "lee@x.com", "L", "5", "t2", false⟩]⟩).1 = .verified := by
  refine ⟨by decide, ?_⟩
  rw [(verify_client_dbtype_dispatch "t2" "lee@x.com" none "Users"
        ⟨[], [⟨1, "lee@x.com", "L", "5", "t2", false⟩]⟩ (by decide)).1]
  decide


theorem verifyStep_none_fst {token email : String} {c : List Rec}
    (hf : c.find? (fun r => r.email == email && r.token == token) = none) :
    (verifyStep token email c).1 = .invalidTokenOrEmail := by
  rw [verifyStep_none hf]

theorem verifyStep_none_snd {token email : String} {c : List Rec}
    (hf : c.find? (fun r => r.email == email && r.token == token) = none) :
    (verifyStep token email c).2 = c := by
  rw [verifyStep_none hf]

theorem verifyStep_found_verified_fst {token email : String} {c : List Rec}
    {r : Rec}
    (hf : c.find? (fun x => x.email == email && x.token == token) = some r)
    (hv : r.verified = true) :
    (verifyStep token email c).1 = .alreadyVerified := by
  rw [verifyStep_found_verified hf hv]

theorem verifyStep_found_verified_snd {token email : String} {c : List Rec}
    {r : Rec}
    (hf : c.find? (fun x => x.email == email && x.token == token) = some r)
    (hv : r.verified = true) :
    (verifyStep token email c).2 = c := by
  rw [verifyStep_found_verified hf hv]

theorem verifyStep_found_unverified_fst {token email : String} {c : List Rec}
    {r : Rec}
    (hf : c.find? (fun x => x.email == email && x.token == token) = some r)
    (hv : r.verified = false) :
    (verifyStep token email c).1 = .verified := by
  rw [verifyStep_found_unverified hf hv]

theorem verifyStep_found_unverified_snd {token email : String} {c : List Rec}
    {r : Rec}
    (hf : c.find? (fun x => x.email == email && x.token == token) = some r)
    (hv : r.verified = false) :
    (verifyStep token email c).2
      = updateFirst (fun x => x.id == r.id)
          (fun x => { x with verified := true }) c := by
  rw [verifyStep_found_unverified hf hv]

/-- C1: `ConfirmVerification` transitions the record to verified and returns
the success result iff a record exists in the collection whose email and
token both exactly equal the given values and whose verified flag is false;
when no (email, token) match exists it fails with the single error
`InvalidTokenOrEmail`, regardless of which part mismatched. -/
theorem confirm_verification_iff (token email : String) (c : List Rec)
    (hWF : WF c) :
    ((verifyStep token email c).1 = .verified ↔
      ∃ r ∈ c, r.email = email ∧ r.token = token ∧ r.verified = false) ∧
    ((verifyStep token email c).1 = .invalidTokenOrEmail ↔
      ¬ ∃ r ∈ c, r.email = email ∧ r.token = token) ∧
    ((verifyStep token email c).1 = .verified →
      ∀ x ∈ (verifyStep token email c).2, x.email = email → x.verified = true) := by
  cases hf : c.find? (fun x => x.email == email && x.token == token) with
  | none =>
      rw [verifyStep_none_fst hf, verifyStep_none_snd hf]
      have hno : ∀ x ∈ c, ¬(x.email = email ∧ x.token = token) := by
        intro x hx hm
        exact List.find?_eq_none.mp hf x hx (verifyPred_eq.mpr hm)
      refine ⟨⟨fun h => absurd h (by decide), ?_⟩, ⟨fun _ => ?_, fun _ => rfl⟩,
              fun h => absurd h (by decide)⟩
      · rintro ⟨r, hr, he, ht, -⟩
        exact absurd ⟨he, ht⟩ (hno r hr)
      · rintro ⟨r, hr, he, ht⟩
        exact hno r hr ⟨he, ht⟩
  | some r =>
      have hp := List.find?_some hf
      obtain ⟨hre, hrt⟩ := verifyPred_eq.mp hp
      have hrmem := List.mem_of_find?_eq_some hf
      by_cases hv : r.verified = true
      · rw [verifyStep_found_verified_fst hf hv]
        refine ⟨⟨fun h => absurd h (by decide), ?_⟩,
                ⟨fun h => absurd h (by decide),
                 fun hno => absurd ⟨r, hrmem, hre, hrt⟩ hno⟩,
                fun h => absurd h (by decide)⟩
        rintro ⟨s, hs, hse, hst, hsv⟩
        have hsr : s = r := emails_injOn hWF.2 hs hrmem (by rw [hse, hre])
        subst hsr
        rw [hv] at hsv
        exact absurd hsv (by decide)
      · have hv2 := Bool.eq_false_iff.mpr hv
        rw [verifyStep_found_unverified_fst hf hv2,
            verifyStep_found_unverified_snd hf hv2]
        refine ⟨⟨fun _ => ⟨r, hrmem, hre, hrt, hv2⟩, fun _ => rfl⟩,
                ⟨fun h => absurd h (by decide),
                 fun hno => absurd ⟨r, hrmem, hre, hrt⟩ hno⟩,
                fun _ => ?_⟩
        obtain ⟨c₁, c₂, hc, hpre⟩ := find?_decomp hf
        subst hc
        rw [updateFirst_id_middle _ hWF.1]
        intro x hx hxe
        rcases List.mem_append.mp hx with hx1 | hx2
        · exact absurd (hxe.trans hre.symm) ((nodup_map_middle hWF.2).1 x hx1)
        · rcases List.mem_cons.mp hx2 with rfl | hx3
          · rfl
          · exact absurd (hxe.trans hre.symm) ((nodup_map_middle hWF.2).2 x hx3)

theorem confirm_verification_iff_witness :
    ((verifyStep "t1" "ann@x.com" [⟨1, "ann@x.com", "", "", "t1", false⟩]).1
        = .verified ↔
      ∃ r ∈ ([⟨1, "ann@x.com", "", "", "t1", false⟩] : List Rec),
        r.email = "ann@x.com" ∧ r.token = "t1" ∧ r.verified = false) :=
  (confirm_verification_iff "t1" "ann@x.com"
    [⟨1, "ann@x.com", "", "", "t1", false⟩] (by decide)).1

/-- C3: `ConfirmVerification` is idempotent: for a record holding token `T`
with `verified = false`, the first call returns the `Verified` result and the
second call with the same pair returns `AlreadyVerified` without mutating the
store again — the stale pair still matches because the token is not cleared
on success. -/
theorem confirm_verification_idempotent (T email : String) (c : List Rec)
    (r : Rec) (hWF : WF c) (hmem : r ∈ c) (he : r.email = email)
    (ht : r.token = T) (hv : r.verified = false) :
    (verifyStep T email c).1 = .verified ∧
    (verifyStep T email (verifyStep T email c).2).1 = .alreadyVerified ∧
    (verifyStep T email (verifyStep T email c).2).2 = (verifyStep T email c).2 := by
  cases hf : c.find? (fun x => x.email == email && x.token == T) with
  | none =>
      exact absurd (verifyPred_eq.mpr ⟨he, ht⟩) (List.find?_eq_none.mp hf r hmem)
  | some r2 =>
      have hp := List.find?_some hf
      have hmem2 := List.mem_of_find?_eq_some hf
      have hr2 : r2 = r :=
        emails_injOn hWF.2 hmem2 hmem (by rw [(verifyPred_eq.mp hp).1, he])
      rw [hr2] at hf
      rw [verifyStep_found_unverified_fst hf hv,
          verifyStep_found_unverified_snd hf hv]
      obtain ⟨c₁, c₂, hc, hpre⟩ := find?_decomp hf
      subst hc
      rw [updateFirst_id_middle _ hWF.1]
      have hf2 : (c₁ ++ ({ r with verified := true }) :: c₂).find?
          (fun x => x.email == email && x.token == T)
            = some { r with verified := true } :=
        find?_middle _ hpre (verifyPred_eq.mpr ⟨he, ht⟩)
      refine ⟨rfl, ?_, ?_⟩
      · rw [verifyStep_found_verified_fst hf2 rfl]
      · rw [verifyStep_found_verified_snd hf2 rfl]

theorem confirm_verification_idempotent_witness :
    (verifyStep "t1" "ann@x.com" [⟨1, "ann@x.com", "", "", "t1", false⟩]).1
        = .verified ∧
    (verifyStep "t1" "ann@x.com"
        (verifyStep "t1" "ann@x.com" [⟨1, "ann@x.com", "", "", "t1", false⟩]).2).1
        = .alreadyVerified :=
  have h := confirm_verification_idempotent "t1" "ann@x.com"
    [⟨1, "ann@x.com", "", "", "t1", false⟩] ⟨1, "ann@x.com", "", "", "t1", false⟩
    (by decide) (by decide) rfl rfl rfl
  ⟨h.1, h.2.1⟩

/-- C4: after a request-verification re-issues a fresh token for an email
whose record was unverified and held token `T`, confirming with the old `T`
never succeeds: the stored value was overwritten, so the lookup fails with
`InvalidTokenOrEmail` (shown both on the collection and through
`GET /verify_client`). -/
theorem stale_token_never_succeeds (lead : LeadSchema) (T : String)
    (rnd : List Nat) (emailPass : Option String) (transportOk : Bool)
    (us c : List Rec) (r : Rec) (hWF : WF c)
    (hf : c.find? (fun x => x.email == lead.email) = some r)
    (ht : r.token = T) (hv : r.verified = false) (hne : token_hex rnd ≠ T) :
    (verifyStep T lead.email
        (create_lead lead rnd emailPass transportOk c).store).1
      = .invalidTokenOrEmail ∧
    (verify_client T lead.email none "leads"
        ⟨us, (create_lead lead rnd emailPass transportOk c).store⟩).1
      = .invalidTokenOrEmail := by
  have hp := List.find?_some hf
  have hre : r.email = lead.email := beq_iff_eq.mp hp
  rw [create_lead_found_unverified hf hv]
  obtain ⟨c₁, c₂, hc, hpre⟩ := find?_decomp hf
  subst hc
  rw [updateFirst_id_middle _ hWF.1, verify_client_fst_leads]
  have hnone : (c₁ ++ ({ r with name := lead.name, phone := lead.phone, token := token_hex rnd, verified := false }) :: c₂).find?
      (fun x => x.email == lead.email && x.token == T) = none := by
    rw [List.find?_eq_none]
    intro x hx hpx
    obtain ⟨hxe, hxt⟩ := verifyPred_eq.mp hpx
    rcases List.mem_append.mp hx with hx1 | hx2
    · exact (nodup_map_middle hWF.2).1 x hx1 (hxe.trans hre.symm)
    · rcases List.mem_cons.mp hx2 with rfl | hx3
      · exact hne hxt
      · exact (nodup_map_middle hWF.2).2 x hx3 (hxe.trans hre.symm)
  rw [verifyStep_none_fst hnone]
  exact ⟨rfl, rfl⟩

theorem stale_token_never_succeeds_witness :
    (verifyStep "t1" "ann@x.com"
        (create_lead ⟨"Ann", "ann@x.com", "5"⟩ [9] (some "pw") true
          [⟨1, "ann@x.com", "A", "4", "t1", false⟩]).store).1
      = .invalidTokenOrEmail :=
  (stale_token_never_succeeds ⟨"Ann", "ann@x.com", "5"⟩ "t1" [9] (some "pw") true
    [] [⟨1, "ann@x.com", "A", "4", "t1", false⟩]
    ⟨1, "ann@x.com", "A", "4", "t1", false⟩
    (by decide) (by decide) rfl rfl (by decide)).1

/-- C7: re-issuing a verification for an existing unverified record
overwrites exactly `token`, the namespace-specific attributes (`name` and
`phone` for a lead, nothing besides `token` for a user) and `verified`
(re-set to false); the record id and email, and every other record, are
unchanged, and no second record is created for that email. -/
theorem reissue_frame (lead : LeadSchema) (email : String) (rnd rnd2 : List Nat)
    (emailPass : Option String) (transportOk : Bool) (c u : List Rec) (r s : Rec)
    (hWFc : WF c) (hr : c.find? (fun x => x.email == lead.email) = some r)
    (hrv : r.verified = false)
    (hWFu : WF u) (hs : u.find? (fun x => x.email == email) = some s)
    (hsv : s.verified = false) :
    ((create_lead lead rnd emailPass transportOk c).store.length = c.length ∧
      List.Forall₂ (leadFrame lead rnd) c
        (create_lead lead rnd emailPass transportOk c).store) ∧
    ((send_verification email rnd2 emailPass transportOk u).store.length
        = u.length ∧
      List.Forall₂ (userFrame email rnd2) u
        (send_verification email rnd2 emailPass transportOk u).store) := by
  constructor
  · have hp := List.find?_some hr
    have hre : r.email = lead.email := beq_iff_eq.mp hp
    rw [create_lead_found_unverified hr hrv]
    obtain ⟨c₁, c₂, hc, hpre⟩ := find?_decomp hr
    subst hc
    rw [updateFirst_id_middle _ hWFc.1]
    have hl : List.Forall₂ (leadFrame lead rnd) (c₁ ++ r :: c₂)
        (c₁ ++ ({ r with name := lead.name, phone := lead.phone, token := token_hex rnd, verified := false }) :: c₂) := by
      refine List.rel_append (List.forall₂_same.mpr ?_)
        (List.Forall₂.cons ⟨rfl, rfl, fun hcon => absurd hre hcon, fun _ => rfl⟩
          (List.forall₂_same.mpr ?_))
      · intro x hx
        have hxe : x.email ≠ lead.email := beq_eq_false_iff_ne.mp (hpre x hx)
        exact ⟨rfl, rfl, fun _ => rfl, fun hcon => absurd hcon hxe⟩
      · intro x hx
        have hxe : x.email ≠ r.email := (nodup_map_middle hWFc.2).2 x hx
        exact ⟨rfl, rfl, fun _ => rfl,
               fun hcon => absurd (hcon.trans hre.symm) hxe⟩
    exact ⟨hl.length_eq.symm, hl⟩
  · have hp := List.find?_some hs
    have hse : s.email = email := beq_iff_eq.mp hp
    rw [send_verification_found_unverified hs hsv]
    obtain ⟨u₁, u₂, hu, hpre⟩ := find?_decomp hs
    subst hu
    rw [updateFirst_id_middle _ hWFu.1]
    have hl : List.Forall₂ (userFrame email rnd2) (u₁ ++ s :: u₂)
        (u₁ ++ ({ s with token := token_hex rnd2, verified := false }) :: u₂) := by
      refine List.rel_append (List.forall₂_same.mpr ?_)
        (List.Forall₂.cons ⟨rfl, rfl, fun hcon => absurd hse hcon, fun _ => rfl⟩
          (List.forall₂_same.mpr ?_))
      · intro x hx
        have hxe : x.email ≠ email := beq_eq_false_iff_ne.mp (hpre x hx)
        exact ⟨rfl, rfl, fun _ => rfl, fun hcon => absurd hcon hxe⟩
      · intro x hx
        have hxe : x.email ≠ s.email := (nodup_map_middle hWFu.2).2 x hx
        exact ⟨rfl, rfl, fun _ => rfl,
               fun hcon => absurd (hcon.trans hse.symm) hxe⟩
    exact ⟨hl.length_eq.symm, hl⟩

theorem reissue_frame_witness :
    (create_lead ⟨"Ann", "ann@x.com", "5"⟩ [3] (some "pw") true
        [⟨1, "ann@x.com", "A", "4", "t1", false⟩]).store.length
      = ([⟨1, "ann@x.com", "A", "4", "t1", false⟩] : List Rec).length ∧
    (send_verification "bob@y.com" [4] (some "pw") true
        [⟨2, "bob@y.com", "", "", "t2", false⟩]).store.length
      = ([⟨2, "bob@y.com", "", "", "t2", false⟩] : List Rec).length :=
  have h := reissue_frame ⟨"Ann", "ann@x.com", "5"⟩ "bob@y.com" [3] [4]
    (some "pw") true [⟨1, "ann@x.com", "A", "4", "t1", false⟩]
    [⟨2, "bob@y.com", "", "", "t2", false⟩]
    ⟨1, "ann@x.com", "A", "4", "t1", false⟩ ⟨2, "bob@y.com", "", "", "t2", false⟩
    (by decide) (by decide) rfl (by decide) (by decide) rfl
  ⟨h.1.1, h.2.1⟩

/-- C9: the token generated by a request-verification call is the hex
encoding of the 20 random bytes consumed by `secrets.token_hex(20)`: a
string of exactly 40 characters over 0-9a-f; and neither endpoint stores a
token value other than this fresh one or values already present. -/
theorem token_hex_spec (lead : LeadSchema) (email : String) (rnd : List Nat)
    (emailPass : Option String) (transportOk : Bool) (c u : List Rec)
    (hlen : rnd.length = 20) :
    (token_hex rnd).length = 40 ∧
    (∀ ch ∈ (token_hex rnd).data, ch ∈ hexDigits) ∧
    (∀ x ∈ (create_lead lead rnd emailPass transportOk c).store,
        x.token = token_hex rnd ∨ ∃ y ∈ c, x.token = y.token) ∧
    (∀ x ∈ (send_verification email rnd emailPass transportOk u).store,
        x.token = token_hex rnd ∨ ∃ y ∈ u, x.token = y.token) := by
  refine ⟨by rw [token_hex_length, hlen], ?_, ?_, ?_⟩
  · intro ch hch
    rw [token_hex_data] at hch
    obtain ⟨b, -, hchb⟩ := List.mem_flatMap.mp hch
    exact mem_byteToHex_mem_hexDigits hchb
  · intro x hx
    cases hf : c.find? (fun z => z.email == lead.email) with
    | none =>
        rw [create_lead_not_found hf] at hx
        rcases List.mem_append.mp hx with hx1 | hx2
        · exact Or.inr ⟨x, hx1, rfl⟩
        · rcases List.mem_cons.mp hx2 with rfl | hx3
          · exact Or.inl rfl
          · simp at hx3
    | some r =>
        by_cases hv : r.verified = true
        · rw [create_lead_found_verified hf hv] at hx
          exact Or.inr ⟨x, hx, rfl⟩
        · rw [create_lead_found_unverified hf (Bool.eq_false_iff.mpr hv)] at hx
          rcases mem_updateFirst hx with hx1 | ⟨y, hy, hpy, rfl⟩
          · exact Or.inr ⟨x, hx1, rfl⟩
          · exact Or.inl rfl
  · intro x hx
    cases hf : u.find? (fun z => z.email == email) with
    | none =>
        rw [send_verification_not_found hf] at hx
        rcases List.mem_append.mp hx with hx1 | hx2
        · exact Or.inr ⟨x, hx1, rfl⟩
        · rcases List.mem_cons.mp hx2 with rfl | hx3
          · exact Or.inl rfl
          · simp at hx3
    | some r =>
        by_cases hv : r.verified = true
        · rw [send_verification_found_verified hf hv] at hx
          exact Or.inr ⟨x, hx, rfl⟩
        · rw [send_verification_found_unverified hf (Bool.eq_false_iff.mpr hv)] at hx
          rcases mem_updateFirst hx with hx1 | ⟨y, hy, hpy, rfl⟩
          · exact Or.inr ⟨x, hx1, rfl⟩
          · exact Or.inl rfl

theorem token_hex_spec_witness :
    (token_hex [0, 1, 2, 3, 4, 5, 6, 7, 8, 9,
                10, 11, 12, 13, 14, 15, 16, 17, 18, 19]).length = 40 :=
  (token_hex_spec ⟨"Ann", "ann@x.com", "5"⟩ "bob@y.com"
    [0, 1, 2, 3, 4, 5, 6, 7, 8, 9, 10, 11, 12, 13, 14, 15, 16, 17, 18, 19]
    none true [] [] rfl).1

end IntelligenceHub
